import Mathlib

set_option maxRecDepth 40000

/-!
Shallow embedding of the stock-predictor backend
(`backend/stock_fetcher.py`, `backend/utils/rate_limiter.py`,
`backend/model.py`, `backend/app.py`, `backend/models/model_loader.py`)
and proofs about the claims of its specification.

Conventions of the embedding:
* machine floats are modelled by exact rationals, together with an explicit
  three-point extension (`FVal`) carrying `nan` / `inf` / `neginf` where the
  code's float semantics can produce them (pandas divisions and `pct_change`);
* Python `None` / pandas `NaN` cells are `Option ℚ`;
* fallible code returns `Except`; exceptions that a function lets escape are
  `Except.error`;
* external libraries that are not part of the repository (LightGBM fitting,
  the float square root used by `rolling.std`, `np.random`) are abstracted as
  explicit function parameters, so every claim is quantified over them.
-/

/-- A pandas cell: a finite number, a string, or NaN/missing. -/
inductive Cell where
  | nan
  | num (q : ℚ)
  | str (s : String)
deriving DecidableEq, Repr

/-- A pandas DataFrame as produced by the upstream provider client:
an index, named columns, and rows of cells. -/
structure DataFrame where
  index : List Cell
  columns : List String
  rows : List (List Cell)
deriving DecidableEq, Repr

/-- Model of the pandas `DataFrame.empty` property: true when either axis has
length zero. -/
def DataFrame.emptyProp (df : DataFrame) : Bool :=
  df.rows.isEmpty || df.columns.isEmpty

/-- Model of `pd.DataFrame()`, the empty frame returned on fetch failure. -/
def emptyDataFrame : DataFrame := ⟨[], [], []⟩

/-- Model of `df.reset_index()` as used in `get_stock_history`: the index
becomes a leading `Date` column. -/
def DataFrame.resetIndex (df : DataFrame) : DataFrame :=
  ⟨(List.range df.index.length).map (fun i => Cell.num i),
   "Date" :: df.columns,
   df.index.zipWith (fun d r => d :: r) df.rows⟩

/-- A Python runtime value as it flows through the JSON cache layer of
`stock_fetcher.py`: `None`, a float, a string, a pandas DataFrame, a dict,
or a list. -/
inductive PyVal where
  | none
  | num (q : ℚ)
  | str (s : String)
  | frame (df : DataFrame)
  | dict (entries : List (String × PyVal))
  | list (xs : List PyVal)
deriving Repr

/-- Look up a key in a Python dict value (`d[k]` for the dicts we model). -/
def PyVal.lookup (entries : List (String × PyVal)) (k : String) : Option PyVal :=
  (entries.find? (fun e => e.1 == k)).map (·.2)

/-! ## `backend/stock_fetcher.py` -/

/-- `CACHE_TTL["history"]`: one hour, in seconds. -/
def CACHE_TTL_history : ℚ := 3600

/-- `CACHE_TTL["latest"]`: five minutes, in seconds. -/
def CACHE_TTL_latest : ℚ := 300

/-- `get_cache_path(symbol, type, days)`: the cache file name
`f"{symbol}_{type}_{days}.json"` (the directory prefix is constant and
irrelevant to key identity). -/
def get_cache_path (symbol ty : String) (days : ℕ) : String :=
  symbol ++ "_" ++ ty ++ "_" ++ toString days ++ ".json"

/-- One cache file as seen by `stock_fetcher`: whether it exists, its
modification time, and the decoded JSON content (`Option.none` models a file
whose open/parse raises, which `load_from_cache` swallows). -/
structure CacheFile where
  exists_ : Bool
  mtime : ℚ
  content : Option PyVal

/-- `is_cache_valid(cache_path, ttl)`: the file exists and
`time.time() - os.path.getmtime(cache_path) < ttl`. -/
def is_cache_valid (f : CacheFile) (ttl : ℚ) (now : ℚ) : Bool :=
  f.exists_ && decide (now - f.mtime < ttl)

/-- `df.to_dict(orient="split")`: a dict with `index`, `columns` and `data`
keys holding parallel lists. -/
def to_dict_split (df : DataFrame) : PyVal :=
  .dict [("index", .list (df.index.map (fun c =>
            match c with
            | .nan => PyVal.none
            | .num q => PyVal.num q
            | .str s => PyVal.str s))),
         ("columns", .list (df.columns.map PyVal.str)),
         ("data", .list (df.rows.map (fun r => PyVal.list (r.map (fun c =>
            match c with
            | .nan => PyVal.none
            | .num q => PyVal.num q
            | .str s => PyVal.str s)))))]

/-- `save_to_cache(data, cache_path)`: wraps the payload as
`{"timestamp": now, "data": data}` after replacing DataFrames (either the
payload itself or dict values) by their `split` dicts, and writes it as JSON.
We model the resulting file content. -/
def save_to_cache (data : PyVal) (now : ℚ) : PyVal :=
  let converted : PyVal :=
    match data with
    | .dict entries =>
        .dict (entries.map (fun e =>
          match e.2 with
          | .frame df => (e.1, to_dict_split df)
          | v => (e.1, v)))
    | .frame df => to_dict_split df
    | v => v
  .dict [("timestamp", .num now), ("data", converted)]

/-- Helper for `load_from_cache`: rebuild a DataFrame from a `split` dict
(`pd.DataFrame(data=v["data"], index=v["index"], columns=v["columns"])`).
`Option.none` models the `KeyError` raised when `columns` is absent. -/
def rebuild_frame (entries : List (String × PyVal)) : Option DataFrame :=
  match PyVal.lookup entries "data", PyVal.lookup entries "index",
        PyVal.lookup entries "columns" with
  | some (.list rows), some (.list idx), some (.list cols) =>
      some ⟨idx.map (fun v => match v with
              | .num q => Cell.num q
              | .str s => Cell.str s
              | _ => Cell.nan),
            cols.map (fun v => match v with
              | .str s => s
              | _ => ""),
            rows.map (fun r => match r with
              | .list cs => cs.map (fun v => match v with
                  | .num q => Cell.num q
                  | .str s => Cell.str s
                  | _ => Cell.nan)
              | _ => [])⟩
  | _, _, _ => Option.none

/-- `load_from_cache(cache_path)`: reads the JSON file, takes
`cache_data.get("data")`, and — only for dict values nested one level down
that carry both an `index` and a `data` key — rebuilds DataFrames. Note that
a payload that is itself a `split` dict is NOT rebuilt: the `elif` branch of
the source is unreachable because the first `isinstance(data, dict)` branch
already matched. Any exception is swallowed and `None` returned. -/
def load_from_cache (file : Option PyVal) : PyVal :=
  match file with
  | Option.none => .none
  | some fileVal =>
    match fileVal with
    | .dict top =>
      match PyVal.lookup top "data" with
      | Option.none => .none
      | some data =>
        match data with
        | .dict entries =>
            let restored := entries.map (fun e =>
              match e.2 with
              | .dict inner =>
                  if (PyVal.lookup inner "index").isSome
                      && (PyVal.lookup inner "data").isSome then
                    (rebuild_frame inner).map (fun df => (e.1, PyVal.frame df))
                  else some e
              | _ => some e)
            match restored.allSome with
            | some entries2 => .dict entries2
            | Option.none => .none
        | d => d
    | _ => .none

/-- Environment of one `get_stock_history(symbol, days)` call: the wall
clock, the symbol's cache file, and the upstream provider response
(`yf.Ticker(symbol).history(period=...)`), an exception or a raw frame. -/
structure FetchEnv where
  now : ℚ
  cacheFile : CacheFile
  provider : Except String DataFrame

/-- Fresh-fetch branch of `get_stock_history`: the whole branch is inside
`try/except`, returning `pd.DataFrame()` on provider failure or on an empty
response, otherwise `reset_index` of the response (caching it on the way
out, which does not affect the returned value). -/
def fetch_fresh (env : FetchEnv) : PyVal :=
  match env.provider with
  | .error _ => .frame emptyDataFrame
  | .ok df =>
      if df.emptyProp then .frame emptyDataFrame
      else .frame df.resetIndex

/-- `get_stock_history(symbol, days)`. The cache branch evaluates
`data is not None and not isinstance(data, pd.DataFrame) and not data.empty`;
for a non-`None`, non-DataFrame `data` the attribute access `data.empty`
raises `AttributeError`, which nothing in the function catches, so it
escapes to the caller (`Except.error`). -/
def get_stock_history (env : FetchEnv) : Except String PyVal :=
  if is_cache_valid env.cacheFile CACHE_TTL_history env.now then
    match load_from_cache env.cacheFile.content with
    | .none => .ok (fetch_fresh env)
    | .frame _ => .ok (fetch_fresh env)
    | _ => .error "AttributeError: object has no attribute empty"
  else
    .ok (fetch_fresh env)

/-- Position of a named column in a DataFrame. -/
def DataFrame.colIdx (df : DataFrame) (c : String) : Option ℕ :=
  df.columns.findIdx? (fun s => s == c)

/-- `df['Close'].iloc[-1]`: the cell of column `c` in the last row. -/
def DataFrame.lastCell (df : DataFrame) (c : String) : Cell :=
  match df.colIdx c, df.rows.getLast? with
  | some i, some r => r.getD i Cell.nan
  | _, _ => Cell.nan

/-- Environment of one `get_latest_prices(symbols)` call: the wall clock, the
shared batch cache file, and — for each symbol — the environment of its
5-day `get_stock_history` call. -/
structure LatestEnv where
  now : ℚ
  batchCacheFile : CacheFile
  histEnv : String → FetchEnv

/-- Body of the per-symbol loop of `get_latest_prices`: the whole lookup is
inside `try/except` with `prices[symbol] = None` as handler. A non-frame
result makes `df.empty` raise; a string close makes `float(...)` raise; both
land in the handler. Otherwise the symbol maps to the last close, or `None`
when the frame is empty, lacks a `Close` column, or the last close is NaN. -/
def latest_price_of (r : Except String PyVal) : PyVal :=
  match r with
  | .error _ => .none
  | .ok v =>
      match v with
      | .frame df =>
          if !df.emptyProp && df.columns.contains "Close" then
            match df.lastCell "Close" with
            | .num q => .num q
            | _ => .none
          else .none
      | _ => .none

/-- Python dict assignment `d[k] = v`: overwrite in place or append. -/
def dictInsert (d : List (String × PyVal)) (k : String) (v : PyVal) :
    List (String × PyVal) :=
  if d.any (fun e => e.1 == k) then
    d.map (fun e => if e.1 == k then (k, v) else e)
  else d ++ [(k, v)]

/-- Cache key used by `get_latest_prices(symbols)`:
`get_cache_path("batch", "latest", len(symbols))`. -/
def latest_cache_path (symbols : List String) : String :=
  get_cache_path "batch" "latest" symbols.length

/-- Fresh-fetch loop of `get_latest_prices`: one `get_stock_history(s, 5)`
per symbol (batching and inter-batch sleeps do not affect the values). -/
def latest_fetch_loop (symbols : List String) (env : LatestEnv) : PyVal :=
  .dict (symbols.foldl
    (fun d s => dictInsert d s (latest_price_of (get_stock_history (env.histEnv s))))
    [])

/-- `get_latest_prices(symbols)`: consult the batch cache first (keyed only
by the number of symbols); on a fresh, loadable entry return it verbatim;
otherwise run the fetch loop. -/
def get_latest_prices (symbols : List String) (env : LatestEnv) : PyVal :=
  if is_cache_valid env.batchCacheFile CACHE_TTL_latest env.now then
    match load_from_cache env.batchCacheFile.content with
    | .none => latest_fetch_loop symbols env
    | p => p
  else latest_fetch_loop symbols env

/-! ## `backend/utils/rate_limiter.py` -/

/-- The `while self.calls and now - self.calls[0] >= self.time_window:
self.calls.popleft()` pruning loop of `RateLimiter.__call__`. -/
def rl_prune (window now : ℚ) : List ℚ → List ℚ
  | [] => []
  | t :: ts => if window ≤ now - t then rl_prune window now ts else t :: ts

/-- One admission through the wrapped function of `RateLimiter.__call__`
(`maxCalls ≥ 1` assumed, as in all uses; with `maxCalls = 0` the source
would index an empty deque). Returns the new deque and the slept duration:
after pruning, if the deque is full the caller sleeps
`time_window - (now - calls[0])`, and then the PRE-sleep `now` is appended
and the call proceeds. -/
def rl_step (maxCalls : ℕ) (window : ℚ) (calls : List ℚ) (now : ℚ) :
    List ℚ × ℚ :=
  let pruned := rl_prune window now calls
  let sleep : ℚ :=
    if maxCalls ≤ pruned.length then
      let s := window - (now - pruned.headD 0)
      if 0 < s then s else 0
    else 0
  (pruned ++ [now], sleep)

/-- Deque contents after a sequence of calls arriving at the given times. -/
def rl_run (maxCalls : ℕ) (window : ℚ) (times : List ℚ) : List ℚ :=
  times.foldl (fun calls t => (rl_step maxCalls window calls t).1) []

/-- Number of recorded timestamps inside the sliding window
`[now - window, now]`. -/
def rl_count_in_window (calls : List ℚ) (window now : ℚ) : ℕ :=
  calls.countP (fun t => decide (now - t < window) && decide (t ≤ now))

/-! ## `backend/model.py` — feature pipeline -/

/-- A float value as produced by the pandas feature pipeline: NaN, an
infinity, or a finite value (modelled exactly as a rational). -/
inductive FVal where
  | nan
  | inf
  | neginf
  | val (q : ℚ)
deriving DecidableEq, Repr

/-- IEEE division for the `rs = gain / loss` step, where both operands are
finite: a zero divisor gives a signed infinity, and `0/0` gives NaN. -/
def divF (g l : ℚ) : FVal :=
  if l ≠ 0 then .val (g / l)
  else if 0 < g then .inf
  else if g < 0 then .neginf
  else .nan

/-- Float multiplication of a feature value by a finite factor
(`last_features * np.random.normal(...)`). -/
def mulF (x : FVal) (c : ℚ) : FVal :=
  match x with
  | .nan => .nan
  | .val q => .val (q * c)
  | .inf => if 0 < c then .inf else if c < 0 then .neginf else .nan
  | .neginf => if 0 < c then .neginf else if c < 0 then .inf else .nan

/-- The `Close` column of the 180-day history frame: one optional rational
per row (`Option.none` is NaN). The embedding works on this column; the
other provider columns are assumed present and non-NaN, so `df.dropna()`
is decided by `Close` and the five derived columns. -/
abbrev Closes := List (Option ℚ)

/-- Cell of the close series at a row index. -/
def closeAt (closes : Closes) (i : ℕ) : Option ℚ :=
  closes.getD i Option.none

/-- `data.diff(1)` at row `i`: NaN at row 0 and wherever either operand is
NaN. -/
def deltaAt (closes : Closes) (i : ℕ) : Option ℚ :=
  if i = 0 then Option.none
  else match closeAt closes i, closeAt closes (i - 1) with
       | some a, some b => some (a - b)
       | _, _ => Option.none

/-- `delta.where(delta > 0, 0)` at row `i`: the positive delta, or `0`.
Note a NaN delta fails the `> 0` test and is REPLACED BY `0`, so the gain
series never contains NaN. -/
def gainAt (closes : Closes) (i : ℕ) : ℚ :=
  match deltaAt closes i with
  | some d => if 0 < d then d else 0
  | Option.none => 0

/-- `(-delta.where(delta < 0, 0))` at row `i`: the magnitude of the negative
delta, or `0`; NaN deltas again become `0`. -/
def lossAt (closes : Closes) (i : ℕ) : ℚ :=
  match deltaAt closes i with
  | some d => if d < 0 then -d else 0
  | Option.none => 0

/-- `series.rolling(window=w).mean()` at row `i`, for a series with no NaN
(the gain/loss series): NaN until the window is full, then the positional
window average. -/
def rollTotalMeanAt (w : ℕ) (f : ℕ → ℚ) (i : ℕ) : FVal :=
  if i + 1 < w then .nan
  else .val ((∑ k in Finset.Icc (i + 1 - w) i, f k) / w)

/-- Whether every close in the trailing `w`-row window ending at `i` is
non-NaN (pandas `rolling` with the default `min_periods = w` needs `w`
non-NaN observations among the `w` positions). -/
def winDefined (closes : Closes) (w i : ℕ) : Bool :=
  @decide (∀ k ∈ Finset.Icc (i + 1 - w) i, (closeAt closes k).isSome)
    Finset.decidableDforallFinset

/-- `df['Close'].rolling(window=w).mean()` at row `i` (MA20 / MA50). -/
def maAt (closes : Closes) (w i : ℕ) : FVal :=
  if i + 1 < w then .nan
  else if winDefined closes w i then
    .val ((∑ k in Finset.Icc (i + 1 - w) i, (closeAt closes k).getD 0) / w)
  else .nan

/-- Sample variance (`ddof = 1`) of the trailing `w`-row close window. -/
def winVar (closes : Closes) (w i : ℕ) : ℚ :=
  let m := (∑ k in Finset.Icc (i + 1 - w) i, (closeAt closes k).getD 0) / w
  (∑ k in Finset.Icc (i + 1 - w) i, ((closeAt closes k).getD 0 - m) ^ 2) / (w - 1)

/-- `df['Close'].rolling(window=20).std()` at row `i`. The square root — a
float-library routine outside this repository — is abstracted as the
parameter `sqrtFn`; only the definedness pattern of the column matters to
the claims. -/
def volAt (sqrtFn : ℚ → ℚ) (closes : Closes) (w i : ℕ) : FVal :=
  if i + 1 < w then .nan
  else if winDefined closes w i then .val (sqrtFn (winVar closes w i))
  else .nan

/-- Forward-filled close at row `i` (`pct_change`'s default
`fill_method="pad"` pads NaN closes with the latest earlier value; only a
leading all-NaN prefix stays NaN). -/
def ffillAt (closes : Closes) : ℕ → Option ℚ
  | 0 => closeAt closes 0
  | i + 1 => match closeAt closes (i + 1) with
             | some q => some q
             | Option.none => ffillAt closes i

/-- `df['Close'].pct_change()` at row `i`: NaN at row 0 and while the padded
series is still NaN; a zero previous close gives a signed infinity (or NaN
for `0/0`). -/
def pctAt (closes : Closes) (i : ℕ) : FVal :=
  if i = 0 then .nan
  else match ffillAt closes i, ffillAt closes (i - 1) with
       | some cur, some prev =>
           if prev ≠ 0 then .val (cur / prev - 1)
           else if 0 < cur then .inf
           else if cur < 0 then .neginf
           else .nan
       | _, _ => .nan

/-- `rs = gain / loss` at row `i`: NaN until the 14-row window is full,
otherwise the IEEE quotient of the two window averages. -/
def rsAt (closes : Closes) (i : ℕ) : FVal :=
  match rollTotalMeanAt 14 (gainAt closes) i, rollTotalMeanAt 14 (lossAt closes) i with
  | .val g, .val l => divF g l
  | _, _ => .nan

/-- `calculate_rsi(data, window=14)` at row `i`:
`100 - (100 / (1 + rs))` under float semantics — an infinite `rs` collapses
to exactly `100`, a NaN `rs` stays NaN. -/
def rsiAt (closes : Closes) (i : ℕ) : FVal :=
  match rsAt closes i with
  | .nan => .nan
  | .inf => .val 100
  | .neginf => .val 100
  | .val q => if 1 + q = 0 then .neginf else .val (100 - 100 / (1 + q))

/-! ## `backend/model.py` — Monte-Carlo forecast and model state -/

/-- Ascending sort, as `np.median` / `np.percentile` perform internally. -/
def npSort (xs : List ℚ) : List ℚ :=
  List.insertionSort (fun a b => a ≤ b) xs

/-- `np.median(xs)`: middle element of the sorted data, or the average of
the two middle elements for even length. -/
def npMedian (xs : List ℚ) : ℚ :=
  let s := npSort xs
  let n := s.length
  if n = 0 then 0
  else if n % 2 = 1 then s.getD (n / 2) 0
  else (s.getD (n / 2 - 1) 0 + s.getD (n / 2) 0) / 2

/-- `np.percentile(xs, q)` with the default linear interpolation:
virtual position `q / 100 * (n - 1)` in the sorted data, interpolating
between the two neighbouring order statistics. -/
def npPercentile (xs : List ℚ) (q : ℚ) : ℚ :=
  let s := npSort xs
  let n := s.length
  if n = 0 then 0
  else
    let pos : ℚ := q * (n - 1) / 100
    let i : ℕ := ⌊pos⌋₊
    let lo := s.getD i 0
    let hi := s.getD (min (i + 1) (n - 1)) 0
    lo + (pos - i) * (hi - lo)

/-- One derived feature row `['RSI', 'MA20', 'MA50', 'Price_Change',
'Volatility']`, in source order. -/
structure FeatureVec where
  rsi : FVal
  ma20 : FVal
  ma50 : FVal
  priceChange : FVal
  volatility : FVal
deriving DecidableEq, Repr

instance : Inhabited FeatureVec := ⟨⟨.nan, .nan, .nan, .nan, .nan⟩⟩

/-- Feature row of the series at row `i`. -/
def featAt (sqrtFn : ℚ → ℚ) (closes : Closes) (i : ℕ) : FeatureVec :=
  ⟨rsiAt closes i, maAt closes 20 i, maAt closes 50 i,
   pctAt closes i, volAt sqrtFn closes 20 i⟩

/-- Whether `df.dropna()` keeps row `i`: the close itself and all five
derived features must be non-NaN (infinities are kept by `dropna`). -/
def keepRow (sqrtFn : ℚ → ℚ) (closes : Closes) (i : ℕ) : Bool :=
  (closeAt closes i).isSome
    && !(decide (rsiAt closes i = .nan))
    && !(decide (maAt closes 20 i = .nan))
    && !(decide (maAt closes 50 i = .nan))
    && !(decide (pctAt closes i = .nan))
    && !(decide (volAt sqrtFn closes 20 i = .nan))

/-- Row indices surviving `df.dropna()`, in order. -/
def keptRows (sqrtFn : ℚ → ℚ) (closes : Closes) : List ℕ :=
  (List.range closes.length).filter (keepRow sqrtFn closes)

/-- Per-draw multiplicative noise for the five features
(`np.random.normal(1, 0.02, size=last_features.shape)`), abstracted as the
concrete factors drawn. -/
structure NoiseVec where
  n1 : ℚ
  n2 : ℚ
  n3 : ℚ
  n4 : ℚ
  n5 : ℚ

/-- `simulated_features = last_features * noise` (elementwise float
multiplication). -/
def mulVec (f : FeatureVec) (nv : NoiseVec) : FeatureVec :=
  ⟨mulF f.rsi nv.n1, mulF f.ma20 nv.n2, mulF f.ma50 nv.n3,
   mulF f.priceChange nv.n4, mulF f.volatility nv.n5⟩

/-- The process-wide regression model state of `model.py`: the module-level
`trained` flag and the fitted LightGBM regressor, abstracted as a function
from a feature row to a (finite) predicted price. -/
structure MState where
  trained : Bool
  predictor : FeatureVec → ℚ

/-- Observable calls into the regression model. -/
inductive MEvent where
  | fit
  | predictCall
deriving DecidableEq, Repr

/-- One forecast point: the median point forecast with its 5th/95th
percentile band. -/
structure ForecastPoint where
  pred : ℚ
  low : ℚ
  high : ℚ
deriving DecidableEq, Repr

instance : Inhabited ForecastPoint := ⟨⟨0, 0, 0⟩⟩

/-- The 100 Monte-Carlo draws for forecast point `i`: one model prediction
per perturbed copy of the last feature row. -/
def mcDraws (pred : FeatureVec → ℚ) (lastF : FeatureVec)
    (noise : ℕ → ℕ → NoiseVec) (i : ℕ) : List ℚ :=
  (List.range 100).map (fun j => pred (mulVec lastF (noise i j)))

/-- Forecast point `i`: `np.median` of the draws with the
`np.percentile(draws, 5)` / `np.percentile(draws, 95)` band. -/
def mcPoint (pred : FeatureVec → ℚ) (lastF : FeatureVec)
    (noise : ℕ → ℕ → NoiseVec) (i : ℕ) : ForecastPoint :=
  let ds := mcDraws pred lastF noise i
  ⟨npMedian ds, npPercentile ds 5, npPercentile ds 95⟩

/-- The numeric payload of a successful `predict_stock` response (dates are
not modelled; they carry no claim). -/
structure PredictResponse where
  symbol : String
  pastPrices : List ℚ
  points : List ForecastPoint
  hourPrediction : ℚ
  dayPrediction : ℚ
  weekPrediction : ℚ
deriving DecidableEq, Repr

instance : Inhabited PredictResponse := ⟨⟨"", [], [], 0, 0, 0⟩⟩

/-- Result of `predict_stock`: one of the structured error dictionaries or
a prediction response. -/
inductive PredictResult where
  | invalidSymbol (symbol : String)
  | noData (symbol : String)
  | insufficientData (symbol : String)
  | prediction (r : PredictResponse)
deriving DecidableEq, Repr

/-- Shape discriminator for `PredictResult` used in statements. -/
def PredictResult.isErrorMarker : PredictResult → Bool
  | .prediction _ => false
  | _ => true

/-- The model-predict call trace of the Monte-Carlo loop: 7 forecast points
times 100 draws. -/
def mcTrace : List MEvent :=
  (List.range 7).flatMap (fun _ => (List.range 100).map (fun _ => MEvent.predictCall))

/-- One `predict_stock(symbol)` call, as a transition on the process model
state. Inputs besides the state: the symbol, the `Close` column of the
180-day history, the LightGBM training routine (`fitFn`), the float square
root (`sqrtFn`) and the drawn noise. Returns the result, the state after
the call, and the model calls made (`fit` / `predict`). -/
def predict_stock_run (symbol : String) (closes : Closes)
    (fitFn : List FeatureVec → List ℚ → (FeatureVec → ℚ))
    (sqrtFn : ℚ → ℚ) (noise : ℕ → ℕ → NoiseVec) (st : MState) :
    PredictResult × MState × List MEvent :=
  if symbol = "" then (.invalidSymbol symbol, st, [])
  else if closes.isEmpty then (.noData symbol, st, [])
  else
    let kept := keptRows sqrtFn closes
    if kept.isEmpty then (.insufficientData symbol, st, [])
    else
      let X := kept.map (featAt sqrtFn closes)
      let prices := kept.map (fun i => (closeAt closes i).getD 0)
      let pred := if st.trained then st.predictor else fitFn X prices
      let st2 : MState := if st.trained then st else ⟨true, fitFn X prices⟩
      let fitEvs : List MEvent := if st.trained then [] else [.fit]
      let lastF := X.getLastD default
      let points := (List.range 7).map (mcPoint pred lastF noise)
      let evs := fitEvs ++ mcTrace
      (.prediction ⟨symbol, prices, points,
          (points.getD 0 default).pred, (points.getD 1 default).pred,
          (points.getLastD default).pred⟩,
       st2, evs)

/-- Input of one call in a process-lifetime call sequence: the symbol, the
history served for it, and the noise drawn during it. -/
structure CallInput where
  symbol : String
  closes : Closes
  noise : ℕ → ℕ → NoiseVec

/-- A sequence of `predict_stock` calls in one process, threading the
module-level model state and concatenating the model-call traces. -/
def run_predict_calls (fitFn : List FeatureVec → List ℚ → (FeatureVec → ℚ))
    (sqrtFn : ℚ → ℚ) (st : MState) (inputs : List CallInput) :
    MState × List MEvent :=
  inputs.foldl
    (fun acc inp =>
      let r := predict_stock_run inp.symbol inp.closes fitFn sqrtFn inp.noise acc.1
      (r.2.1, acc.2 ++ r.2.2))
    (st, [])

/-! ## `backend/app.py` and `backend/models/model_loader.py` -/

/-- A Python exception as relevant to `calculate_prediction`'s handler
chain. -/
inductive PyExc where
  | fileNotFound
  | valueError (msg : String)
  | nameError (name : String)
  | generic (msg : String)
deriving DecidableEq, Repr

/-- A persisted per-symbol model artifact, abstracted as the array of
predictions it returns for a requested future index
(`model.predict(future_X)`). -/
abbrev ArtifactModel := ℕ → List ℚ

/-- State of one artifact on disk for `ModelLoader.load_model`. -/
inductive ArtifactLoad where
  | missing
  | corrupt
  | ok (m : ArtifactModel)

/-- `ModelLoader.load_model(model_name)`: serve from the in-memory dict if
present; raise `FileNotFoundError` if the `.joblib` file is absent; wrap any
load failure in a generic `Exception`. -/
def load_model (cache : String → Option ArtifactModel)
    (artifact : String → ArtifactLoad) (name : String) :
    Except PyExc ArtifactModel :=
  match cache name with
  | some m => .ok m
  | Option.none =>
      match artifact name with
      | .missing => .error .fileNotFound
      | .corrupt => .error (.generic ("Error loading model " ++ name))
      | .ok m => .ok m

/-- Names bound at module scope in `backend/app.py` (imports and
definitions). `model.get_history` is NOT among them: the import list of
`app.py` brings in only `predict_stock` and `convert_to_native_types` from
`model`. -/
def app_module_globals : List String :=
  ["FastAPI", "HTTPException", "Query", "CORSMiddleware", "logging", "pd",
   "datetime", "JSONResponse", "jsonable_encoder", "BaseModel", "np",
   "ModelLoader", "predict_stock", "convert_to_native_types", "stock_fetcher",
   "app", "model_loader", "root", "PredictRequest", "get_indexes",
   "get_top_stocks", "stock_stats", "stock_ohlc", "calculate_prediction",
   "compare"]

/-- The per-period result dictionary that `calculate_prediction` returns:
`{"value": ..., "confidence_interval": {"low": ..., "high": ...}}`, plus an
`error` message on the failure shapes. -/
structure PeriodResult where
  value : Option ℚ
  ciLow : Option ℚ
  ciHigh : Option ℚ
  error : Option String
deriving DecidableEq, Repr

/-- Error-shaped `PeriodResult` (all numeric fields `None`). -/
def periodError (msg : String) : PeriodResult :=
  ⟨Option.none, Option.none, Option.none, some msg⟩

/-- Environment of one `calculate_prediction(symbol, period)` call. -/
structure CPEnv where
  dfEmpty : Bool
  hasCloseCol : Bool
  closes : Closes
  loaderCache : String → Option ArtifactModel
  artifact : String → ArtifactLoad

/-- Body of the `try:` block of `calculate_prediction`. Its first statement
is `df = get_history(symbol, days=180)`; `get_history` is resolved in
`app.py`'s module globals at call time, is absent there, and so raises
`NameError` before anything else runs. The rest of the body is modelled
faithfully but is unreachable. -/
def calculate_prediction_body (symbol period : String) (env : CPEnv) :
    Except PyExc PeriodResult :=
  if ¬ app_module_globals.contains "get_history" then
    .error (.nameError "get_history")
  else if env.dfEmpty || !env.hasCloseCol then
    .ok (periodError
      ("Insufficient historical data for " ++ symbol ++
       " to make a prediction for " ++ period ++ "."))
  else if env.closes.all (fun c => c.isNone) then
    .ok (periodError
      ("All price data is missing for " ++ symbol ++ " for " ++ period ++ "."))
  else
    let prices := env.closes.filterMap id
    if prices.isEmpty then
      .ok (periodError
        ("No valid price data for " ++ symbol ++ " for " ++ period ++ "."))
    else do
      let m ← load_model env.loaderCache env.artifact
        (symbol ++ "_" ++ period ++ "_model")
      let futureIdx : Except PyExc ℕ :=
        if period = "1h" then .ok prices.length
        else if period = "1d" then .ok (prices.length + 1)
        else if period = "1w" then .ok (prices.length + 7)
        else .error (.valueError ("Invalid period: " ++ period))
      let idx ← futureIdx
      match m idx with
      | [] => pure (periodError
          ("Model prediction failed for " ++ symbol ++ " " ++ period ++ "."))
      | p :: _ => pure ⟨some p, some (p * (95 / 100)), some (p * (105 / 100)),
          Option.none⟩

/-- `calculate_prediction(symbol, period)`: the `try` body above together
with its `except FileNotFoundError` / `except ValueError` /
`except Exception` handler chain; the function itself never raises. -/
def calculate_prediction (symbol period : String) (env : CPEnv) :
    PeriodResult :=
  match calculate_prediction_body symbol period env with
  | .ok r => r
  | .error .fileNotFound =>
      periodError ("Prediction model not available for " ++ symbol ++ " " ++
        period ++ ".")
  | .error (.valueError m) =>
      periodError ("Invalid input for prediction: " ++ m)
  | .error _ =>
      periodError ("Internal error during prediction for " ++ symbol ++ " " ++
        period ++ ".")

/-! ## Spec-side definitions and statement helpers -/

/-- Entries of a dict result (`[]` for any non-dict value). -/
def PyVal.dictEntries : PyVal → List (String × PyVal)
  | .dict d => d
  | _ => []

/-- Whether an `Except` result is a normal return (no escaped exception). -/
def Except.isOkB {ε α : Type} : Except ε α → Bool
  | .ok _ => true
  | .error _ => false

/-- Projection stated by the spec for `fetchLatestPrices`: the last close of
the fetched series, or absent (`None`) when the series is empty or the close
is unavailable/NaN. -/
def spec_latest_projection (r : Except String PyVal) : PyVal :=
  match r with
  | .ok (.frame df) =>
      if df.emptyProp then .none
      else match df.lastCell "Close" with
           | .num q => .num q
           | _ => .none
  | _ => .none

/-- Delta of the close series in spec terms (row minus previous row),
meaningful on rows whose window is fully defined. -/
def specDelta (closes : Closes) (k : ℕ) : ℚ :=
  (closeAt closes k).getD 0 - (closeAt closes (k - 1)).getD 0

/-- Average positive delta over the 14-row trailing window ending at `i`,
as the spec words it. -/
def specAvgGain (closes : Closes) (i : ℕ) : ℚ :=
  (∑ k in Finset.Icc (i - 13) i,
    (if 0 < specDelta closes k then specDelta closes k else 0)) / 14

/-- Average absolute negative delta over the 14-row trailing window ending
at `i`, as the spec words it. -/
def specAvgLoss (closes : Closes) (i : ℕ) : ℚ :=
  (∑ k in Finset.Icc (i - 13) i,
    (if specDelta closes k < 0 then -specDelta closes k else 0)) / 14

/-- Number of usable rows of a close series: row indices whose close is
defined (non-NaN). -/
def usable_row_count (closes : Closes) : ℕ :=
  ((Finset.range closes.length).filter
    (fun j => (closeAt closes j).isSome)).card

/-- Number of `fit` events in a model-call trace. -/
def countFit (evs : List MEvent) : ℕ :=
  evs.countP (fun e => e == MEvent.fit)

/-- Trace property: every `predict` call is preceded by a `fit` call. -/
def noPredictBeforeFit (evs : List MEvent) : Prop :=
  ∀ n : ℕ, evs[n]? = some MEvent.predictCall →
    ∃ m : ℕ, m < n ∧ evs[m]? = some MEvent.fit

/-! ## Concrete inputs used by counterexamples and witnesses -/

/-- A one-row provider frame with the full column set. -/
def eg_provider_frame : DataFrame :=
  ⟨[Cell.str "2024-01-02"],
   ["Open", "High", "Low", "Close", "Volume"],
   [[Cell.num 1, Cell.num 2, Cell.num 1, Cell.num (3 / 2), Cell.num 1000]]⟩

/-- The frame above as `get_stock_history` would return and cache it. -/
def eg_cached_frame : DataFrame := eg_provider_frame.resetIndex

/-- Environment of claim C1's failing input: a history cache entry in the
documented `split` payload format written 10 seconds ago (TTL 3600). -/
def c1_env : FetchEnv :=
  ⟨1010, ⟨true, 1000, some (save_to_cache (.frame eg_cached_frame) 1000)⟩,
   .error "network unreachable"⟩

/-- A provider frame whose rows lack the required `Close` column. -/
def c8_partial_frame : DataFrame :=
  ⟨[Cell.str "2024-01-02"], ["Open"], [[Cell.num 1]]⟩

/-- Environment of claim C8's counterexample: no valid cache entry, provider
returns one row missing required columns. -/
def c8_env : FetchEnv :=
  ⟨0, ⟨false, 0, Option.none⟩, .ok c8_partial_frame⟩

/-- Environment of claim C8's witness: no valid cache entry, provider
raises. -/
def c8w_env : FetchEnv :=
  ⟨0, ⟨false, 0, Option.none⟩, .error "ConnectionError"⟩

/-- A 15-row constant close series: every delta is zero. -/
def c7_flat : Closes := List.replicate 15 (some 10)

/-- A 16-row strictly alternating close series: gains and losses both
present in every 14-row window. -/
def c7_alt : Closes :=
  (List.range 16).map (fun k => some (if k % 2 = 0 then (1 : ℚ) else 2))

/-- A 50-row strictly increasing close series (just enough usable rows for
one feature row to survive `dropna`). -/
def eg_closes : Closes :=
  (List.range 50).map (fun k => some ((k : ℚ) + 1))

/-- A 10-row close series (fewer than 50 usable rows). -/
def c4_closes : Closes :=
  (List.range 10).map (fun k => some ((k : ℚ) + 1))

/-- Degenerate training routine for witnesses: the constant-42 predictor. -/
def eg_fit : List FeatureVec → List ℚ → (FeatureVec → ℚ) :=
  fun _ _ => fun _ => 42

/-- Identity stand-in for the float square root in witnesses. -/
def eg_sqrt : ℚ → ℚ := fun q => q

/-- Noise stream drawing the factor 1 for every feature of every draw. -/
def eg_noise : ℕ → ℕ → NoiseVec := fun _ _ => ⟨1, 1, 1, 1, 1⟩

/-- Untrained initial model state with a constant-0 predictor. -/
def eg_st0 : MState := ⟨false, fun _ => 0⟩

/-- The result of one `predict_stock` call on the 50-row series from the
untrained state. -/
def eg_run : PredictResult × MState × List MEvent :=
  predict_stock_run "TST" eg_closes eg_fit eg_sqrt eg_noise eg_st0

/-- The response payload of `eg_run` (defaulted if it were an error). -/
def eg_resp : PredictResponse :=
  match eg_run.1 with
  | .prediction r => r
  | _ => default

/-- The process-lifetime trace of the single-call sequence on the 50-row
series. -/
def c6_trace : List MEvent :=
  (run_predict_calls eg_fit eg_sqrt eg_st0
    [⟨"TST", eg_closes, eg_noise⟩]).2

/-- Environment of claim C9's failing input: fetch would succeed, but the
artifact for the requested symbol/period pair is missing. -/
def c9_env : CPEnv :=
  ⟨false, true, [some 1, some 2], fun _ => Option.none, fun _ => .missing⟩

/-- Batch cache file holding a fresh latest-prices payload. -/
def c10_cache : CacheFile :=
  ⟨true, 100, some (save_to_cache
    (.dict [("AAPL", .num 5), ("MSFT", .none)]) 100)⟩

/-- Latest-prices environment with the fresh batch payload above. -/
def c10_env : LatestEnv :=
  ⟨150, c10_cache, fun _ => ⟨150, ⟨false, 0, Option.none⟩, .error "net"⟩⟩

/-- Latest-prices environment with no valid batch cache entry: "AAPL"
resolves through the provider, any other symbol's provider raises. -/
def c3_env : LatestEnv :=
  ⟨0, ⟨false, 0, Option.none⟩,
   fun s => if s = "AAPL"
            then ⟨0, ⟨false, 0, Option.none⟩, .ok eg_provider_frame⟩
            else ⟨0, ⟨false, 0, Option.none⟩, .error "HTTPError"⟩⟩

/-- Whether a Python value is `None` (used to state cache-hit conditions
decidably). -/
def PyVal.isNoneB : PyVal → Bool
  | .none => true
  | _ => false

/-- Invariant of the process model state and accumulated model-call trace:
the trained flag mirrors the presence of a `fit` event, at most one `fit` is
ever recorded, and no `predict` precedes the first `fit`. -/
def modelInv (out : MState × List MEvent) : Prop :=
  (out.1.trained = true ↔ MEvent.fit ∈ out.2) ∧
  countFit out.2 ≤ 1 ∧ noPredictBeforeFit out.2

/-! ## Claims -/

/-- C1: the spec requires that a populated cache entry younger than its TTL
makes `get_stock_history` return the cached payload without contacting the
provider. On the code, a fresh history cache entry (10 s old, TTL 3600 s, in
the documented split payload format) instead makes `get_stock_history`
raise `AttributeError`: `load_from_cache` hands back a plain dict (its
DataFrame-rebuilding `elif` is dead code) and the guard
`not isinstance(data, pd.DataFrame) and not data.empty` then evaluates
`.empty` on that dict. -/
theorem c1_cache_hit_raises_attribute_error :
    is_cache_valid c1_env.cacheFile CACHE_TTL_history c1_env.now = true ∧
    get_stock_history c1_env =
      Except.error "AttributeError: object has no attribute empty" := by
  exact ⟨by with_unfolding_all rfl, by with_unfolding_all rfl⟩

/-- C2: the spec's throttle invariant says no more than `maxCalls` recorded
admission timestamps ever fall within one `windowSeconds` sliding window.
With `maxCalls = 1`, `windowSeconds = 10` and calls arriving at t = 0 and
t = 1, the code sleeps 9 s at the second call but then records the stale
pre-sleep timestamp, leaving the deque `[0, 1]`: two recorded admissions
inside the window `[-9, 1]`. -/
theorem c2_throttle_window_exceeded :
    rl_run 1 10 [0, 1] = [0, 1] ∧
    rl_count_in_window (rl_run 1 10 [0, 1]) 10 1 = 2 ∧
    (rl_step 1 10 (rl_run 1 10 [0]) 1).2 = 9 := by
  refine ⟨?_, ?_, ?_⟩ <;> with_unfolding_all decide

/-- C9: the spec says a missing trained-model artifact makes
`calculate_prediction` return the structured "model not available" result.
On the code, `calculate_prediction` never reaches `load_model`: its first
statement calls `get_history`, which `app.py` does not import, so every
call raises `NameError` and the generic handler returns the "Internal
error" structure instead. -/
theorem c9_missing_artifact_generic_internal_error :
    calculate_prediction "AAPL" "1h" c9_env =
      periodError "Internal error during prediction for AAPL 1h." ∧
    calculate_prediction "AAPL" "1h" c9_env ≠
      periodError "Prediction model not available for AAPL 1h." := by
  exact ⟨by with_unfolding_all rfl, by with_unfolding_all decide⟩

/-- C8 counterexample: a provider response with rows missing the required
`Close` column does NOT resolve to an empty series — `get_stock_history`
returns the partial frame unchanged (column validation happens in the
callers). -/
theorem c8_missing_columns_not_empty_series :
    get_stock_history c8_env = .ok (.frame c8_partial_frame.resetIndex) ∧
    (c8_partial_frame.resetIndex).emptyProp = false := by
  exact ⟨by with_unfolding_all rfl, by with_unfolding_all rfl⟩

/-- C7 counterexample: on a 15-row constant series the 14-row average loss
at row 14 is zero, yet the code's RSI there is NaN (from `rs = 0/0`), not
100 as the claim states. -/
theorem c7_flat_window_nan_not_100 :
    rollTotalMeanAt 14 (lossAt c7_flat) 14 = FVal.val 0 ∧
    rsiAt c7_flat 14 = FVal.nan ∧
    rsiAt c7_flat 14 ≠ FVal.val 100 := by
  refine ⟨?_, ?_, ?_⟩ <;> with_unfolding_all decide

/-- C10: the batch cache key of `get_latest_prices` depends only on the
NUMBER of symbols requested: any two symbol lists of equal length resolve to
the same cache entry, and a fresh loadable cached payload is returned
verbatim for either list. -/
theorem c10_latest_cache_key_ignores_symbols
    (s1 s2 : List String) (env : LatestEnv)
    (hlen : s1.length = s2.length) :
    latest_cache_path s1 = latest_cache_path s2 ∧
    (is_cache_valid env.batchCacheFile CACHE_TTL_latest env.now = true →
     (load_from_cache env.batchCacheFile.content).isNoneB = false →
     get_latest_prices s1 env = load_from_cache env.batchCacheFile.content ∧
     get_latest_prices s2 env = load_from_cache env.batchCacheFile.content) := by
  constructor
  · simp [latest_cache_path, get_cache_path, hlen]
  · intro hvalid hload
    have key : ∀ s : List String,
        get_latest_prices s env = load_from_cache env.batchCacheFile.content := by
      intro s
      unfold get_latest_prices
      rw [hvalid]
      simp only [if_true]
      cases h : load_from_cache env.batchCacheFile.content with
      | none => rw [h] at hload; simp [PyVal.isNoneB] at hload
      | num q => rfl
      | str v => rfl
      | frame df => rfl
      | dict d => rfl
      | list xs => rfl
    exact ⟨key s1, key s2⟩

/-- C10 witness: two different two-symbol lists hit the same fresh batch
entry and both receive the cached payload verbatim. -/
theorem c10_witness :
    latest_cache_path ["AAPL", "MSFT"] = latest_cache_path ["GOOG", "TSLA"] ∧
    get_latest_prices ["AAPL", "MSFT"] c10_env =
      load_from_cache c10_env.batchCacheFile.content ∧
    get_latest_prices ["GOOG", "TSLA"] c10_env =
      load_from_cache c10_env.batchCacheFile.content := by
  have h := c10_latest_cache_key_ignores_symbols
    ["AAPL", "MSFT"] ["GOOG", "TSLA"] c10_env rfl
  exact ⟨h.1, h.2 (by with_unfolding_all decide) (by with_unfolding_all decide)⟩

/-- C8 as amended: when no valid cache entry short-circuits the call, the
fetch path of `get_stock_history` never lets an exception escape, and both
a provider failure and a zero-row provider response resolve to the explicit
empty series; rows missing required columns, however, are returned
unchanged (their validation happens in the callers). -/
theorem c8_amended_fetch_failures_resolve_empty (env : FetchEnv)
    (hmiss : is_cache_valid env.cacheFile CACHE_TTL_history env.now = false) :
    (get_stock_history env).isOkB = true ∧
    (∀ msg, env.provider = .error msg →
      get_stock_history env = .ok (.frame emptyDataFrame)) ∧
    (∀ df, env.provider = .ok df → df.emptyProp = true →
      get_stock_history env = .ok (.frame emptyDataFrame)) := by
  unfold get_stock_history
  rw [hmiss]
  simp only [Bool.false_eq_true, if_false]
  refine ⟨rfl, ?_, ?_⟩
  · intro msg hp
    unfold fetch_fresh
    rw [hp]
  · intro df hp hempty
    unfold fetch_fresh
    rw [hp]
    simp [hempty]

/-- C8 witness: with no cache entry and a raising provider, the call returns
normally with the empty series. -/
theorem c8_witness :
    (get_stock_history c8w_env).isOkB = true ∧
    get_stock_history c8w_env = .ok (.frame emptyDataFrame) := by
  have h := c8_amended_fetch_failures_resolve_empty c8w_env
    (by with_unfolding_all decide)
  exact ⟨h.1, h.2.1 "ConnectionError" rfl⟩

/-- Unfolding characterization of `winDefined`. -/
theorem winDefined_spec (closes : Closes) (w i : ℕ) :
    winDefined closes w i = true ↔
      ∀ k ∈ Finset.Icc (i + 1 - w) i, (closeAt closes k).isSome := by
  unfold winDefined
  exact decide_eq_true_iff

/-- On a row whose close and predecessor close are defined, the masked gain
series agrees with the positive part of the spec's delta. -/
theorem gainAt_eq_spec (closes : Closes) (k : ℕ) (hk1 : 1 ≤ k)
    (ha : (closeAt closes k).isSome) (hb : (closeAt closes (k - 1)).isSome) :
    gainAt closes k =
      if 0 < specDelta closes k then specDelta closes k else 0 := by
  obtain ⟨a, hA⟩ := Option.isSome_iff_exists.mp ha
  obtain ⟨b, hB⟩ := Option.isSome_iff_exists.mp hb
  unfold gainAt deltaAt specDelta
  rw [if_neg (by omega : ¬ k = 0), hA, hB]
  simp

/-- On a row whose close and predecessor close are defined, the masked loss
series agrees with the absolute negative part of the spec's delta. -/
theorem lossAt_eq_spec (closes : Closes) (k : ℕ) (hk1 : 1 ≤ k)
    (ha : (closeAt closes k).isSome) (hb : (closeAt closes (k - 1)).isSome) :
    lossAt closes k =
      if specDelta closes k < 0 then -specDelta closes k else 0 := by
  obtain ⟨a, hA⟩ := Option.isSome_iff_exists.mp ha
  obtain ⟨b, hB⟩ := Option.isSome_iff_exists.mp hb
  unfold lossAt deltaAt specDelta
  rw [if_neg (by omega : ¬ k = 0), hA, hB]
  simp

/-- C7 as amended: on every row with a fully-defined 15-row trailing close
window (hence 14 real deltas), `calculate_rsi` computes
`100 - 100/(1 + RS)` with `RS` the ratio of the window's average positive
delta to its average absolute negative delta; when the average loss is zero
the RSI is 100 only if the average gain is positive — a window with zero
average gain AND zero average loss yields NaN (`rs = 0/0`), and the row is
treated as missing. -/
theorem c7_amended_rsi_formula (closes : Closes) (i : ℕ)
    (hi : 14 ≤ i) (hw : winDefined closes 15 i = true) :
    (specAvgLoss closes i ≠ 0 →
      rsiAt closes i =
        FVal.val (100 - 100 / (1 + specAvgGain closes i / specAvgLoss closes i))) ∧
    (specAvgLoss closes i = 0 → specAvgGain closes i ≠ 0 →
      rsiAt closes i = FVal.val 100) ∧
    (specAvgLoss closes i = 0 → specAvgGain closes i = 0 →
      rsiAt closes i = FVal.nan) := by
  have hdef := (winDefined_spec closes 15 i).mp hw
  have hmem : ∀ k, i - 14 ≤ k → k ≤ i → (closeAt closes k).isSome := by
    intro k h1 h2
    exact hdef k (Finset.mem_Icc.mpr (by omega))
  have hgain : rollTotalMeanAt 14 (gainAt closes) i =
      FVal.val (specAvgGain closes i) := by
    unfold rollTotalMeanAt specAvgGain
    rw [if_neg (by omega)]
    have h14 : i + 1 - 14 = i - 13 := by omega
    rw [h14]
    congr 2
    apply Finset.sum_congr rfl
    intro k hk
    have hk' := Finset.mem_Icc.mp hk
    exact gainAt_eq_spec closes k (by omega)
      (hmem k (by omega) (by omega))
      (hmem (k - 1) (by omega) (by omega))
  have hloss : rollTotalMeanAt 14 (lossAt closes) i =
      FVal.val (specAvgLoss closes i) := by
    unfold rollTotalMeanAt specAvgLoss
    rw [if_neg (by omega)]
    have h14 : i + 1 - 14 = i - 13 := by omega
    rw [h14]
    congr 2
    apply Finset.sum_congr rfl
    intro k hk
    have hk' := Finset.mem_Icc.mp hk
    exact lossAt_eq_spec closes k (by omega)
      (hmem k (by omega) (by omega))
      (hmem (k - 1) (by omega) (by omega))
  have hrs : rsAt closes i =
      divF (specAvgGain closes i) (specAvgLoss closes i) := by
    unfold rsAt
    rw [hgain, hloss]
  have hg0 : 0 ≤ specAvgGain closes i := by
    unfold specAvgGain
    apply div_nonneg _ (by norm_num)
    apply Finset.sum_nonneg
    intro k _
    split
    · linarith [lt_of_lt_of_le (by assumption : (0:ℚ) < specDelta closes k) le_rfl]
    · exact le_refl 0
  have hl0 : 0 ≤ specAvgLoss closes i := by
    unfold specAvgLoss
    apply div_nonneg _ (by norm_num)
    apply Finset.sum_nonneg
    intro k _
    split
    · linarith [(by assumption : specDelta closes k < 0)]
    · exact le_refl 0
  refine ⟨?_, ?_, ?_⟩
  · intro hlne
    have hlpos : 0 < specAvgLoss closes i := lt_of_le_of_ne hl0 (Ne.symm hlne)
    have hq0 : 0 ≤ specAvgGain closes i / specAvgLoss closes i :=
      div_nonneg hg0 (le_of_lt hlpos)
    unfold rsiAt
    rw [hrs]
    unfold divF
    rw [if_pos hlne]
    simp only []
    rw [if_neg (by linarith : ¬ (1 + specAvgGain closes i / specAvgLoss closes i = 0))]
  · intro hl hgne
    have hgpos : 0 < specAvgGain closes i := lt_of_le_of_ne hg0 (Ne.symm hgne)
    unfold rsiAt
    rw [hrs]
    unfold divF
    rw [if_neg (by simp [hl]), if_pos hgpos]
  · intro hl hg
    unfold rsiAt
    rw [hrs]
    unfold divF
    rw [if_neg (by simp [hl]), if_neg (by simp [hg]), if_neg (by simp [hg])]

/-- C7 witness: on the alternating series at row 14 the average loss is
nonzero and the RSI equals the spec's formula exactly. -/
theorem c7_witness :
    rsiAt c7_alt 14 =
      FVal.val (100 - 100 / (1 + specAvgGain c7_alt 14 / specAvgLoss c7_alt 14)) :=
  (c7_amended_rsi_formula c7_alt 14 (by omega)
    (by with_unfolding_all decide)).1 (by with_unfolding_all decide)

/-- A row with a defined close lies inside the series. -/
theorem lt_length_of_closeAt_isSome {closes : Closes} {k : ℕ}
    (h : (closeAt closes k).isSome) : k < closes.length := by
  by_contra hk
  push_neg at hk
  unfold closeAt at h
  rw [List.getD_eq_default _ _ hk] at h
  simp at h

/-- With fewer than 50 usable rows no 50-row close window is fully defined,
so the MA50 column is NaN everywhere. -/
theorem ma50_nan_of_few_usable (closes : Closes)
    (h : usable_row_count closes < 50) (i : ℕ) :
    maAt closes 50 i = FVal.nan := by
  unfold maAt
  split
  · rfl
  · rename_i hge
    have hwd : winDefined closes 50 i = false := by
      by_contra hw
      rw [Bool.not_eq_false] at hw
      have hdef := (winDefined_spec closes 50 i).mp hw
      have hsub : Finset.Icc (i + 1 - 50) i ⊆
          (Finset.range closes.length).filter
            (fun j => (closeAt closes j).isSome) := by
        intro k hk
        have hkd := hdef k hk
        exact Finset.mem_filter.mpr
          ⟨Finset.mem_range.mpr (lt_length_of_closeAt_isSome hkd), hkd⟩
      have hcard : (Finset.Icc (i + 1 - 50) i).card = 50 := by
        rw [Nat.card_Icc]; omega
      have hle := Finset.card_le_card hsub
      unfold usable_row_count at h
      omega
    rw [hwd]
    simp

/-- C4: a history whose usable (non-NaN-close) row count is below 50 makes
`predict_stock` return the structured no-data / insufficient-data error
result, leave the module model state untouched, and make no `fit` or
`predict` call: every row's MA50 is NaN, so `dropna` empties the frame
before the model is reached. -/
theorem c4_insufficient_rows_no_model_calls (symbol : String)
    (closes : Closes) (fitFn : List FeatureVec → List ℚ → (FeatureVec → ℚ))
    (sqrtFn : ℚ → ℚ) (noise : ℕ → ℕ → NoiseVec) (st : MState)
    (hsym : symbol ≠ "") (husable : usable_row_count closes < 50) :
    predict_stock_run symbol closes fitFn sqrtFn noise st =
      ((if closes.isEmpty then PredictResult.noData symbol
        else PredictResult.insufficientData symbol), st, ([] : List MEvent)) := by
  have hkept : keptRows sqrtFn closes = [] := by
    apply List.filter_eq_nil_iff.mpr
    intro i _
    unfold keepRow
    rw [ma50_nan_of_few_usable closes husable i]
    simp
  unfold predict_stock_run
  rw [if_neg hsym]
  by_cases hemp : closes.isEmpty
  · simp [hemp]
  · simp only [hemp, Bool.false_eq_true, if_false, hkept, List.isEmpty_nil,
      if_true]

/-- C4 witness: a 10-row series produces the insufficient-data marker with
no model interaction. -/
theorem c4_witness :
    predict_stock_run "AAPL" c4_closes eg_fit eg_sqrt eg_noise eg_st0 =
      ((if c4_closes.isEmpty then PredictResult.noData "AAPL"
        else PredictResult.insufficientData "AAPL"), eg_st0,
       ([] : List MEvent)) :=
  c4_insufficient_rows_no_model_calls "AAPL" c4_closes eg_fit eg_sqrt
    eg_noise eg_st0 (by decide) (by with_unfolding_all decide)

/-- Monotone access into a sorted list via optional indexing. -/
theorem sorted_getD_le (s : List ℚ)
    (hs : List.Sorted (fun a b => a ≤ b) s) (a b : ℕ)
    (hab : a ≤ b) (hb : b < s.length) :
    (s[a]?).getD 0 ≤ (s[b]?).getD 0 := by
  rw [List.getElem?_eq_getElem (by omega), List.getElem?_eq_getElem hb]
  simp only [Option.getD_some]
  rcases eq_or_lt_of_le hab with rfl | hlt
  · exact le_refl _
  · have := List.Sorted.rel_get_of_lt hs
      (a := ⟨a, by omega⟩) (b := ⟨b, hb⟩) (by exact hlt)
    simpa [List.get_eq_getElem] using this

/-- For 100 data points, the interpolated 5th percentile is bounded by the
median. -/
theorem npPercentile5_le_npMedian (xs : List ℚ) (h : xs.length = 100) :
    npPercentile xs 5 ≤ npMedian xs := by
  unfold npPercentile npMedian npSort
  dsimp only
  have hsort : List.Sorted (fun a b => a ≤ b)
      (List.insertionSort (fun a b => a ≤ b) xs) :=
    List.sorted_insertionSort _ xs
  have hlen : (List.insertionSort (fun a b => a ≤ b) xs).length = 100 := by
    rw [(List.perm_insertionSort _ xs).length_eq, h]
  set s := List.insertionSort (fun a b => a ≤ b) xs
  rw [hlen]
  have hpos : (5 : ℚ) * ((100 : ℕ) - 1) / 100 = 99 / 20 := by norm_num
  rw [hpos]
  have hfl : (⌊(99 / 20 : ℚ)⌋₊ : ℕ) = 4 := by
    rw [Nat.floor_eq_iff (by norm_num)]; norm_num
  rw [hfl]
  norm_num
  have h45 := sorted_getD_le s hsort 4 5 (by omega) (by omega)
  have h549 := sorted_getD_le s hsort 5 49 (by omega) (by omega)
  have h4950 := sorted_getD_le s hsort 49 50 (by omega) (by omega)
  nlinarith [h45, h549, h4950]

/-- For 100 data points, the median is bounded by the interpolated 95th
percentile. -/
theorem npMedian_le_npPercentile95 (xs : List ℚ) (h : xs.length = 100) :
    npMedian xs ≤ npPercentile xs 95 := by
  unfold npPercentile npMedian npSort
  dsimp only
  have hsort : List.Sorted (fun a b => a ≤ b)
      (List.insertionSort (fun a b => a ≤ b) xs) :=
    List.sorted_insertionSort _ xs
  have hlen : (List.insertionSort (fun a b => a ≤ b) xs).length = 100 := by
    rw [(List.perm_insertionSort _ xs).length_eq, h]
  set s := List.insertionSort (fun a b => a ≤ b) xs
  rw [hlen]
  have hpos : (95 : ℚ) * ((100 : ℕ) - 1) / 100 = 1881 / 20 := by norm_num
  rw [hpos]
  have hfl : (⌊(1881 / 20 : ℚ)⌋₊ : ℕ) = 94 := by
    rw [Nat.floor_eq_iff (by norm_num)]; norm_num
  rw [hfl]
  norm_num
  have h9495 := sorted_getD_le s hsort 94 95 (by omega) (by omega)
  have h5094 := sorted_getD_le s hsort 50 94 (by omega) (by omega)
  have h4950 := sorted_getD_le s hsort 49 50 (by omega) (by omega)
  nlinarith [h9495, h5094, h4950]

/-- Every Monte-Carlo forecast point has an ordered band:
`low ≤ pred ≤ high`. -/
theorem mcPoint_band_ordered (pred : FeatureVec → ℚ) (lastF : FeatureVec)
    (noise : ℕ → ℕ → NoiseVec) (i : ℕ) :
    (mcPoint pred lastF noise i).low ≤ (mcPoint pred lastF noise i).pred ∧
    (mcPoint pred lastF noise i).pred ≤ (mcPoint pred lastF noise i).high := by
  have hlen : (mcDraws pred lastF noise i).length = 100 := by
    unfold mcDraws
    rw [List.length_map, List.length_range]
  unfold mcPoint
  dsimp only
  exact ⟨npPercentile5_le_npMedian _ hlen, npMedian_le_npPercentile95 _ hlen⟩

/-- C5: every prediction produced by `predict_stock` satisfies
`confidenceLow ≤ predictedPrice ≤ confidenceHigh` on each of its 7 forecast
points, for any fitted model, any feature vector and any drawn noise: the
point forecast is the median of the 100 Monte-Carlo draws and the band is
their 5th/95th percentiles. -/
theorem c5_confidence_bands_ordered (symbol : String) (closes : Closes)
    (fitFn : List FeatureVec → List ℚ → (FeatureVec → ℚ))
    (sqrtFn : ℚ → ℚ) (noise : ℕ → ℕ → NoiseVec) (st : MState)
    (r : PredictResponse)
    (hp : (predict_stock_run symbol closes fitFn sqrtFn noise st).1 =
      PredictResult.prediction r) :
    ∀ pt ∈ r.points, pt.low ≤ pt.pred ∧ pt.pred ≤ pt.high := by
  unfold predict_stock_run at hp
  by_cases h1 : symbol = ""
  · rw [if_pos h1] at hp; simp at hp
  · rw [if_neg h1] at hp
    by_cases h2 : closes.isEmpty
    · rw [if_pos h2] at hp; simp at hp
    · rw [if_neg (by simp [h2]) ] at hp
      by_cases h3 : (keptRows sqrtFn closes).isEmpty
      · simp only [h3, if_true] at hp; simp at hp
      · simp only [h3, Bool.false_eq_true, if_false] at hp
        simp only [PredictResult.prediction.injEq] at hp
        subst hp
        intro pt hpt
        simp only [List.mem_map] at hpt
        obtain ⟨i, _, hpt⟩ := hpt
        rw [← hpt]
        exact mcPoint_band_ordered _ _ _ _

set_option maxHeartbeats 4000000 in
/-- C5 witness: the single surviving feature row of the 50-row series yields
a 7-point forecast; its first point's band brackets its forecast. -/
theorem c5_witness :
    (eg_resp.points.getD 0 default).low ≤ (eg_resp.points.getD 0 default).pred ∧
    (eg_resp.points.getD 0 default).pred ≤ (eg_resp.points.getD 0 default).high := by
  have happ := c5_confidence_bands_ordered "TST" eg_closes eg_fit eg_sqrt
    eg_noise eg_st0 eg_resp (by with_unfolding_all rfl)
  apply happ
  have hne : eg_resp.points ≠ [] := by with_unfolding_all decide
  cases hpts : eg_resp.points with
  | nil => exact absurd hpts hne
  | cons a l => simp

/-- The Monte-Carlo trace contains only `predict` calls. -/
theorem mcTrace_all_predict : ∀ e ∈ mcTrace, e = MEvent.predictCall := by
  with_unfolding_all decide

/-- `fit` never occurs in the Monte-Carlo trace. -/
theorem fit_not_mem_mcTrace : MEvent.fit ∉ mcTrace := by
  intro h
  exact absurd (mcTrace_all_predict _ h) (by decide)

/-- Case analysis of one `predict_stock` call: it is either a no-op on the
model (error result), or a predict-only call from a trained state, or the
unique fitting call that transitions the state to trained. -/
theorem predict_run_cases (symbol : String) (closes : Closes)
    (fitFn : List FeatureVec → List ℚ → (FeatureVec → ℚ))
    (sqrtFn : ℚ → ℚ) (noise : ℕ → ℕ → NoiseVec) (st : MState) :
    ((predict_stock_run symbol closes fitFn sqrtFn noise st).2.2 = [] ∧
     (predict_stock_run symbol closes fitFn sqrtFn noise st).2.1 = st) ∨
    (st.trained = true ∧
     (predict_stock_run symbol closes fitFn sqrtFn noise st).2.1 = st ∧
     (predict_stock_run symbol closes fitFn sqrtFn noise st).2.2 = mcTrace) ∨
    (st.trained = false ∧
     (predict_stock_run symbol closes fitFn sqrtFn noise st).2.1.trained = true ∧
     (predict_stock_run symbol closes fitFn sqrtFn noise st).2.2 =
       MEvent.fit :: mcTrace) := by
  unfold predict_stock_run
  by_cases h1 : symbol = ""
  · rw [if_pos h1]; left; exact ⟨rfl, rfl⟩
  · rw [if_neg h1]
    by_cases h2 : closes.isEmpty = true
    · simp only [h2, if_true]; left; refine ⟨?_, ?_⟩ ; trivial ; trivial
    · simp only [h2, Bool.false_eq_true, if_false]
      by_cases h3 : (keptRows sqrtFn closes).isEmpty = true
      · simp only [h3, if_true]; left; refine ⟨?_, ?_⟩ ; trivial ; trivial
      · simp only [h3, Bool.false_eq_true, if_false]
        by_cases h4 : st.trained = true
        · right; left
          refine ⟨h4, ?_, ?_⟩ <;> simp only [h4, if_true] <;> rfl
        · right; right
          have h4f : st.trained = false := by simpa using h4
          refine ⟨h4f, ?_, ?_⟩ <;>
            simp only [h4f, Bool.false_eq_true, if_false] <;> rfl

/-- The fold of `predict_stock` calls over the process lifetime preserves
the model invariant. -/
theorem run_fold_inv (fitFn : List FeatureVec → List ℚ → (FeatureVec → ℚ))
    (sqrtFn : ℚ → ℚ) :
    ∀ (inputs : List CallInput) (st : MState) (acc : List MEvent),
    modelInv (st, acc) →
    modelInv (inputs.foldl
      (fun acc2 inp =>
        let r := predict_stock_run inp.symbol inp.closes fitFn sqrtFn inp.noise acc2.1
        (r.2.1, acc2.2 ++ r.2.2)) (st, acc)) := by
  intro inputs
  induction inputs with
  | nil => intro st acc h; simpa using h
  | cons inp rest ih =>
    intro st acc hInv
    rw [List.foldl_cons]
    apply ih
    dsimp only
    simp only [modelInv] at hInv
    obtain ⟨hiff, hcount, hnpbf⟩ := hInv
    simp only [modelInv]
    rcases predict_run_cases inp.symbol inp.closes fitFn sqrtFn inp.noise st with
      ⟨hevs, hst⟩ | ⟨htr, hst, hevs⟩ | ⟨htr, htr', hevs⟩
    · rw [hevs, hst, List.append_nil]
      exact ⟨hiff, hcount, hnpbf⟩
    · rw [hevs, hst]
      refine ⟨?_, ?_, ?_⟩
      · constructor
        · intro _
          exact List.mem_append_left _ (hiff.mp htr)
        · intro _
          exact htr
      · unfold countFit at hcount ⊢
        rw [List.countP_append]
        have hz : List.countP (fun e => e == MEvent.fit) mcTrace = 0 := by
          with_unfolding_all decide
        omega
      · intro n hn
        by_cases hlt : n < acc.length
        · rw [List.getElem?_append_left hlt] at hn
          obtain ⟨m, hm, hfit⟩ := hnpbf n hn
          have hmlt : m < acc.length := (List.getElem?_eq_some.mp hfit).1
          exact ⟨m, hm, by rw [List.getElem?_append_left hmlt]; exact hfit⟩
        · push_neg at hlt
          obtain ⟨m, hfit⟩ := List.getElem?_of_mem (hiff.mp htr)
          have hmlt : m < acc.length := (List.getElem?_eq_some.mp hfit).1
          exact ⟨m, by omega, by rw [List.getElem?_append_left hmlt]; exact hfit⟩
    · rw [hevs]
      have hnotmem : MEvent.fit ∉ acc := by
        intro hmem
        have := hiff.mpr hmem
        rw [htr] at this
        exact Bool.false_ne_true this
      have hcz : List.countP (fun e => e == MEvent.fit) acc = 0 := by
        rw [List.countP_eq_zero]
        intro a ha hba
        exact hnotmem ((beq_iff_eq.mp hba) ▸ ha)
      refine ⟨?_, ?_, ?_⟩
      · constructor
        · intro _
          exact List.mem_append_right _ (List.mem_cons_self _ _)
        · intro _
          exact htr'
      · unfold countFit
        rw [List.countP_append]
        have h1 : List.countP (fun e => e == MEvent.fit)
            (MEvent.fit :: mcTrace) = 1 := by
          with_unfolding_all decide
        omega
      · intro n hn
        by_cases hlt : n < acc.length
        · rw [List.getElem?_append_left hlt] at hn
          obtain ⟨m, hm, hfit⟩ := hnpbf n hn
          have hmlt : m < acc.length := (List.getElem?_eq_some.mp hfit).1
          exact ⟨m, hm, by rw [List.getElem?_append_left hmlt]; exact hfit⟩
        · push_neg at hlt
          refine ⟨acc.length, ?_, ?_⟩
          · rcases eq_or_lt_of_le hlt with heq | hl
            · exfalso
              rw [← heq, List.getElem?_append_right (le_refl _)] at hn
              simp at hn
            · exact hl
          · rw [List.getElem?_append_right (le_refl _)]
            simp

/-- C6: starting from the untrained process state, any sequence of
`predict_stock` calls fits the regression model at most once, never issues
a `predict` call before the `fit` has happened, and ends trained exactly
when some call reached training. -/
theorem c6_fit_once_and_fit_before_predict
    (fitFn : List FeatureVec → List ℚ → (FeatureVec → ℚ))
    (sqrtFn : ℚ → ℚ) (p0 : FeatureVec → ℚ) (inputs : List CallInput) :
    countFit (run_predict_calls fitFn sqrtFn ⟨false, p0⟩ inputs).2 ≤ 1 ∧
    noPredictBeforeFit (run_predict_calls fitFn sqrtFn ⟨false, p0⟩ inputs).2 ∧
    ((run_predict_calls fitFn sqrtFn ⟨false, p0⟩ inputs).1.trained = true ↔
      MEvent.fit ∈ (run_predict_calls fitFn sqrtFn ⟨false, p0⟩ inputs).2) := by
  have hInv0 : modelInv (⟨false, p0⟩, ([] : List MEvent)) := by
    refine ⟨by simp, ?_, ?_⟩
    · show countFit [] ≤ 1
      decide
    · intro n hn
      simp at hn
  have h := run_fold_inv fitFn sqrtFn inputs ⟨false, p0⟩ [] hInv0
  unfold run_predict_calls
  exact ⟨h.2.1, h.2.2, h.1⟩

/-- C6 witness: one successful call from the untrained state records its
`fit` at position 0, before all 700 `predict` calls. -/
theorem c6_witness :
    countFit c6_trace ≤ 1 ∧
    (∃ m : ℕ, m < 1 ∧ c6_trace[m]? = some MEvent.fit) := by
  have h := c6_fit_once_and_fit_before_predict eg_fit eg_sqrt (fun _ => 0)
    [⟨"TST", eg_closes, eg_noise⟩]
  refine ⟨h.1, h.2.1 1 ?_⟩
  with_unfolding_all decide

/-- The per-symbol loop body equals the spec's projection. -/
theorem latest_price_of_eq_spec (r : Except String PyVal) :
    latest_price_of r = spec_latest_projection r := by
  unfold latest_price_of spec_latest_projection
  cases r with
  | error e => rfl
  | ok v =>
    cases v with
    | frame df =>
      dsimp only
      by_cases hemp : df.emptyProp = true
      · rw [hemp]
        simp
      · have hemp' : df.emptyProp = false := by simpa using hemp
        rw [hemp']
        by_cases hcol : df.columns.contains "Close" = true
        · rw [hcol]
          rfl
        · have hcol' : df.columns.contains "Close" = false := by simpa using hcol
          rw [hcol']
          have hidx : df.colIdx "Close" = Option.none := by
            unfold DataFrame.colIdx
            rw [List.findIdx?_eq_none_iff]
            intro x hx
            have hxne : x ≠ "Close" := by
              intro hxc
              rw [List.contains_eq_any_beq] at hcol'
              have hany : (df.columns.any fun a => "Close" == a) = true :=
                List.any_eq_true.mpr ⟨x, hx, by simp [hxc]⟩
              simp_all
            simp [hxne]
          have hlast : df.lastCell "Close" = Cell.nan := by
            unfold DataFrame.lastCell
            rw [hidx]
          rw [hlast]
          simp
    | none => rfl
    | num q => rfl
    | str v => rfl
    | dict d => rfl
    | list xs => rfl

/-- Every entry produced by the latest-prices fetch fold carries the value
the loop computes for its key. -/
theorem latest_fold_values (env : LatestEnv) :
    ∀ (symbols : List String) (acc : List (String × PyVal)),
    (∀ e ∈ acc, e.2 = latest_price_of (get_stock_history (env.histEnv e.1))) →
    ∀ e ∈ symbols.foldl
      (fun d s => dictInsert d s (latest_price_of (get_stock_history (env.histEnv s))))
      acc,
      e.2 = latest_price_of (get_stock_history (env.histEnv e.1)) := by
  intro symbols
  induction symbols with
  | nil => intro acc hacc e he; exact hacc e he
  | cons s rest ih =>
    intro acc hacc
    rw [List.foldl_cons]
    apply ih
    intro e he
    unfold dictInsert at he
    by_cases hany : acc.any (fun e0 => e0.1 == s) = true
    · rw [if_pos hany] at he
      obtain ⟨e0, he0, heq⟩ := List.mem_map.mp he
      by_cases hk : e0.1 == s
      · rw [if_pos hk] at heq
        rw [← heq]
      · rw [if_neg hk] at heq
        rw [← heq]
        exact hacc e0 he0
    · rw [if_neg hany] at he
      rcases List.mem_append.mp he with hl | hr
      · exact hacc e hl
      · rw [List.mem_singleton.mp hr]

/-- Every requested symbol ends up as a key of the fetch fold's dict. -/
theorem latest_fold_keys (env : LatestEnv) :
    ∀ (symbols : List String) (acc : List (String × PyVal)) (s : String),
    s ∈ symbols ∨ (∃ e ∈ acc, e.1 = s) →
    ∃ e ∈ symbols.foldl
      (fun d s2 => dictInsert d s2 (latest_price_of (get_stock_history (env.histEnv s2))))
      acc,
      e.1 = s := by
  intro symbols
  induction symbols with
  | nil =>
    intro acc s hs
    rcases hs with h | h
    · simp at h
    · simpa using h
  | cons s0 rest ih =>
    intro acc s hs
    rw [List.foldl_cons]
    apply ih
    rcases hs with hmem | ⟨e, he, hkey⟩
    · rcases List.mem_cons.mp hmem with heq | hrest
      · right
        subst heq
        unfold dictInsert
        by_cases hany : acc.any (fun e0 => e0.1 == s) = true
        · rw [if_pos hany]
          obtain ⟨e0, he0, hk0⟩ := List.any_eq_true.mp hany
          refine ⟨(s, latest_price_of (get_stock_history (env.histEnv s))), ?_, rfl⟩
          rw [List.mem_map]
          exact ⟨e0, he0, by rw [if_pos hk0]⟩
        · rw [if_neg hany]
          exact ⟨(s, latest_price_of (get_stock_history (env.histEnv s))),
            List.mem_append_right _ (List.mem_singleton.mpr rfl), rfl⟩
      · left; exact hrest
    · right
      unfold dictInsert
      by_cases hany : acc.any (fun e0 => e0.1 == s0) = true
      · rw [if_pos hany]
        by_cases hk : e.1 == s0
        · refine ⟨(s0, latest_price_of (get_stock_history (env.histEnv s0))), ?_, ?_⟩
          · rw [List.mem_map]
            exact ⟨e, he, by rw [if_pos hk]⟩
          · rw [← hkey]
            exact (beq_iff_eq.mp hk).symm
        · refine ⟨e, ?_, hkey⟩
          rw [List.mem_map]
          exact ⟨e, he, by rw [if_neg hk]⟩
      · rw [if_neg hany]
        exact ⟨e, List.mem_append_left _ he, hkey⟩

/-- C3: on a batch-cache miss, `get_latest_prices` is the spec's projection
over a 5-day series fetch: every requested symbol maps to the last close of
its fetched series, or to `None` exactly when the series is empty or the
close is unavailable/NaN. -/
theorem c3_latest_prices_projection (symbols : List String)
    (env : LatestEnv) (s : String)
    (hmiss : is_cache_valid env.batchCacheFile CACHE_TTL_latest env.now = false)
    (hmem : s ∈ symbols) :
    PyVal.lookup (get_latest_prices symbols env).dictEntries s =
      some (spec_latest_projection (get_stock_history (env.histEnv s))) := by
  have hres : get_latest_prices symbols env = latest_fetch_loop symbols env := by
    unfold get_latest_prices
    rw [hmiss]
    simp
  rw [hres]
  unfold latest_fetch_loop PyVal.dictEntries PyVal.lookup
  obtain ⟨e, he, hkey⟩ := latest_fold_keys env symbols [] s (Or.inl hmem)
  have hval := latest_fold_values env symbols [] (by intro e0 he0; simp at he0) e he
  have hfind : (symbols.foldl
      (fun d s2 => dictInsert d s2 (latest_price_of (get_stock_history (env.histEnv s2))))
      []).find? (fun e0 => e0.1 == s) |>.isSome := by
    rw [List.find?_isSome]
    exact ⟨e, he, by simp [hkey]⟩
  obtain ⟨e1, hfind1⟩ := Option.isSome_iff_exists.mp hfind
  have he1mem := List.mem_of_find?_eq_some hfind1
  have he1key : e1.1 = s := by
    have := List.find?_some hfind1
    exact beq_iff_eq.mp this
  have he1val := latest_fold_values env symbols []
    (by intro e0 he0; simp at he0) e1 he1mem
  rw [hfind1]
  dsimp only [Option.map]
  rw [he1val, he1key, latest_price_of_eq_spec]

/-- C3 witness: on a cache miss with two symbols, the present symbol maps to
the projected last close of its fetched series. -/
theorem c3_witness :
    PyVal.lookup (get_latest_prices ["AAPL", "MSFT"] c3_env).dictEntries "AAPL" =
      some (spec_latest_projection (get_stock_history (c3_env.histEnv "AAPL"))) :=
  c3_latest_prices_projection ["AAPL", "MSFT"] c3_env "AAPL"
    (by with_unfolding_all decide) (by decide)
